import Mathlib

/-!
# Verification of the per-bin binned-statistic engine

A shallow embedding of `src/histogram/binnedstatistic.rs` (the
`BinnedStatistic` struct and its methods) together with the external `Grid`
collaborator described by the specification.

Modelling choices:
* the generic float type `T : num_traits::Float` is embedded as `ℚ`
  (exact field arithmetic); `T::sqrt` is an abstract parameter `sq : ℚ → ℚ`
  passed to the update function, mirroring the genericity of the Rust code;
* the multidimensional arrays `ArrayD<_>` sharing the grid's shape are
  embedded as total functions from bin indices (`List ℕ`, one offset per
  axis) to cell contents; `Option` cells keep their `Option` type;
* the Rust `panic!` calls inside `add_sample` are distinguished terminal
  outcomes of the `AddResult` type, and `Err(BinNotFound)` is the
  `binNotFound` outcome carrying the untouched store;
* the `usize` counters and their `as i32` casts are embedded as unbounded
  `Nat`/`Int`: the claims under study concern the update algebra, not 32-bit
  wraparound after 2^31 samples in one bin.
-/

namespace BinnedStat

/-- Modelled from the spec: the external `Grid` collaborator (grid
construction lives outside `src/`).  A grid is a per-axis list of bin edges;
per the spec two grids are equal only if built from identical edge sets, so
structural equality is grid equality. -/
structure Grid where
  edges : List (List ℚ)
deriving DecidableEq

/-- Modelled from the spec: number of axes of the grid. -/
def Grid.ndim (g : Grid) : Nat := g.edges.length

/-- Modelled from the spec: per-axis bin counts (bins are the gaps between
consecutive edges). -/
def Grid.shape (g : Grid) : List Nat := g.edges.map (fun e => e.length - 1)

/-- Modelled from the spec: resolve one coordinate against one axis' edge
list.  Bins are left inclusive, right exclusive: with edges
`e₀ < e₁ < ⋯ < eₘ`, bin `k` is `[eₖ, eₖ₊₁)`; a coordinate outside `[e₀, eₘ)`
is outside the domain. -/
def findBin : List ℚ → ℚ → Option Nat
  | e1 :: e2 :: rest, x =>
    if x < e1 then none
    else if x < e2 then some 0
    else (findBin (e2 :: rest) x).map (· + 1)
  | _, _ => none

/-- Modelled from the spec: `index_of(point) -> bin index | none`.  A point
resolves to the tuple of its per-axis bin offsets; it is outside the domain
when any coordinate is outside its axis (a point of the wrong
dimensionality never resolves). -/
def Grid.index_of (g : Grid) (p : List ℚ) : Option (List Nat) :=
  if p.length = g.edges.length then
    (g.edges.zip p).mapM (fun ax => findBin ax.1 ax.2)
  else none

/-- The aggregate store: embedding of the Rust struct `BinnedStatistic`.
Each `ArrayD` field becomes a function from bin indices to cell values. -/
structure BinnedStatistic where
  counts : List Nat → Option Nat
  sum : List Nat → Option ℚ
  m1 : List Nat → ℚ
  m2 : List Nat → ℚ
  mean : List Nat → Option ℚ
  variance : List Nat → Option ℚ
  standard_deviation : List Nat → Option ℚ
  min : List Nat → Option ℚ
  max : List Nat → Option ℚ
  grid : Grid
  ddof : Nat

/-- Embedding of `BinnedStatistic::new`: every `Option` cell starts absent,
`m1`/`m2` start at zero, `ddof` defaults to `0`. -/
def BinnedStatistic.new (grid : Grid) (ddof : Option Nat) : BinnedStatistic where
  counts := fun _ => none
  sum := fun _ => none
  m1 := fun _ => 0
  m2 := fun _ => 0
  mean := fun _ => none
  variance := fun _ => none
  standard_deviation := fun _ => none
  min := fun _ => none
  max := fun _ => none
  grid := grid
  ddof := ddof.getD 0

namespace BinnedStatistic

/-- `let n1 = self.counts[id].unwrap_or(0usize) as i32` -/
def n1 (s : BinnedStatistic) (id : List Nat) : Int := ((s.counts id).getD 0 : Nat)

/-- `let n = n1 + 1i32` -/
def nNew (s : BinnedStatistic) (id : List Nat) : Int := s.n1 id + 1

/-- the `counts[id]` update: `None => Some(1)`, `Some(x) => Some(x + 1)` -/
def countsNew (s : BinnedStatistic) (id : List Nat) : Option Nat :=
  match s.counts id with
  | none => some 1
  | some x => some (x + 1)

/-- `let delta = value - self.m1[id]` -/
def delta (s : BinnedStatistic) (id : List Nat) (value : ℚ) : ℚ := value - s.m1 id

/-- `let delta_n = delta / T::from_i32(n).unwrap()` -/
def delta_n (s : BinnedStatistic) (id : List Nat) (value : ℚ) : ℚ :=
  s.delta id value / (s.nNew id : ℚ)

/-- `let term1 = delta * delta_n * T::from_i32(n1).unwrap()` -/
def term1 (s : BinnedStatistic) (id : List Nat) (value : ℚ) : ℚ :=
  s.delta id value * s.delta_n id value * (s.n1 id : ℚ)

/-- `self.m1[id] = self.m1[id] + delta_n` -/
def m1New (s : BinnedStatistic) (id : List Nat) (value : ℚ) : ℚ :=
  s.m1 id + s.delta_n id value

/-- `self.m2[id] = self.m2[id] + term1` -/
def m2New (s : BinnedStatistic) (id : List Nat) (value : ℚ) : ℚ :=
  s.m2 id + s.term1 id value

/-- `let dof = n - (self.ddof as i32)` -/
def dof (s : BinnedStatistic) (id : List Nat) : Int := s.nNew id - (s.ddof : Int)

/-- The variance value written in the non-panicking arms of the `dof.cmp(&0)`
match: `Equal => zero`, `Greater => m2[id] / dof` (reading the updated `m2`). -/
def varVal (s : BinnedStatistic) (id : List Nat) (value : ℚ) : ℚ :=
  if s.dof id = 0 then 0 else s.m2New id value / (s.dof id : ℚ)

/-- `self.sum[id]` update: `None => Some(value)`, `Some(x) => Some(x + value)` -/
def sumNew (s : BinnedStatistic) (id : List Nat) (value : ℚ) : Option ℚ :=
  match s.sum id with
  | none => some value
  | some x => some (x + value)

/-- `self.max[id]` update: `None => Some(value)`, `Some(x) => Some(T::max(value, x))` -/
def maxNew (s : BinnedStatistic) (id : List Nat) (value : ℚ) : Option ℚ :=
  match s.max id with
  | none => some value
  | some x => some (Max.max value x)

/-- `self.min[id]` update: `None => Some(value)`, `Some(x) => Some(T::min(value, x))` -/
def minNew (s : BinnedStatistic) (id : List Nat) (value : ℚ) : Option ℚ :=
  match s.min id with
  | none => some value
  | some x => some (Min.min value x)

/-- The store produced by the `Some(bin_index)` arm of `add_sample` when
neither panic fires: every aggregate array is updated at `id` exactly as in
the Rust body, all other cells untouched. -/
def updatedState (sq : ℚ → ℚ) (s : BinnedStatistic) (id : List Nat) (value : ℚ) :
    BinnedStatistic where
  counts := Function.update s.counts id (s.countsNew id)
  sum := Function.update s.sum id (s.sumNew id value)
  m1 := Function.update s.m1 id (s.m1New id value)
  m2 := Function.update s.m2 id (s.m2New id value)
  mean := Function.update s.mean id (some (s.m1New id value))
  variance := Function.update s.variance id (some (s.varVal id value))
  standard_deviation :=
    Function.update s.standard_deviation id (some (sq (s.varVal id value)))
  min := Function.update s.min id (s.minNew id value)
  max := Function.update s.max id (s.maxNew id value)
  grid := s.grid
  ddof := s.ddof

end BinnedStatistic

/-- Outcome of one `add_sample` call: `Ok(())` with the mutated store,
`Err(BinNotFound)` with the untouched store, or one of the two `panic!`s in
the body (which in Rust abort before any state is observable). -/
inductive AddResult where
  | ok (s : BinnedStatistic)
  | binNotFound (s : BinnedStatistic)
  | panicInvalidDof
  | panicNegVariance

/-- `true` exactly on the `ok` outcome. -/
def AddResult.isOk : AddResult → Bool
  | .ok _ => true
  | _ => false

/-- `true` exactly on the `InvalidDegreesOfFreedom` panic outcome. -/
def AddResult.isPanicInvalidDof : AddResult → Bool
  | .panicInvalidDof => true
  | _ => false

/-- The store carried by an `ok` or `binNotFound` outcome. -/
def AddResult.state : AddResult → Option BinnedStatistic
  | .ok s => some s
  | .binNotFound s => some s
  | _ => none

/-- Embedding of `BinnedStatistic::add_sample`.  The grid resolves the
sample or the call fails with `BinNotFound` and the store is untouched; on a
resolved bin the aggregates are updated by Welford's recurrence, with the
`dof < 0` panic (`InvalidDegreesOfFreedom`) and the negative-variance panic
in the places the source has them. -/
def BinnedStatistic.add_sample (sq : ℚ → ℚ) (s : BinnedStatistic) (sample : List ℚ)
    (value : ℚ) : AddResult :=
  match s.grid.index_of sample with
  | some id =>
    if s.dof id < 0 then .panicInvalidDof
    else if s.varVal id value < 0 then .panicNegVariance
    else .ok (s.updatedState sq id value)
  | none => .binNotFound s

/-- Embedding of `BinnedStatistic::variance_2`: it ignores the accumulated
`variance` array and returns a fresh array of the grid's shape filled with
`None`. -/
def BinnedStatistic.variance_2 (_s : BinnedStatistic) : List Nat → Option ℚ :=
  fun _ => none

/-- Embedding of `BinnedStatistic::variance_3`: a copy of the accumulated
`variance` array. -/
def BinnedStatistic.variance_3 (s : BinnedStatistic) : List Nat → Option ℚ :=
  s.variance

/-- The stores reachable from `BinnedStatistic::new` by any sequence of
`add_sample` calls.  A `BinNotFound` call returns the store unchanged and a
panic aborts, so the successful calls are the only state transitions. -/
inductive Reachable (sq : ℚ → ℚ) : BinnedStatistic → Prop
  | new (g : Grid) (d : Option Nat) : Reachable sq (BinnedStatistic.new g d)
  | step (s s' : BinnedStatistic) (sample : List ℚ) (value : ℚ) :
      Reachable sq s → s.add_sample sq sample value = .ok s' → Reachable sq s'

/-- Modelled from the spec: the batch driver (§4.5, `from_samples`), which is
only commented-out code in `src/`.  It applies `add_sample` row by row in
input order, discarding each row's `BinNotFound` result; a panic aborts the
whole run. -/
def runRows (sq : ℚ → ℚ) : BinnedStatistic → List (List ℚ × ℚ) → Option BinnedStatistic
  | s, [] => some s
  | s, (p, v) :: rest =>
    match s.add_sample sq p v with
    | .ok s' => runRows sq s' rest
    | .binNotFound s' => runRows sq s' rest
    | _ => none

/-- Modelled from the spec: the pointwise combination of two optional cells
used by the merge operator on the mergeable aggregates (`count`, `sum`); an
absent cell is the identity, two present cells are added. -/
def mergeCell {β : Type} [Add β] : Option β → Option β → Option β
  | none, b => b
  | some a, none => some a
  | some a, some b => some (a + b)

/-- Modelled from the spec: the merge operator (§4.4, §6), absent from
`src/`.  Both stores' grids must be equal (identical edge sets); on mismatch
the operation fails before any element is combined.  Only the mergeable
subset (`count`, `sum`) is combined pointwise; the moment-based aggregates
are outside the mergeable subset (full moment combination is a documented
extension point) and are carried from the first store. -/
def merge (a b : BinnedStatistic) : Option BinnedStatistic :=
  if a.grid = b.grid then
    some { a with
      counts := fun i => mergeCell (a.counts i) (b.counts i),
      sum := fun i => mergeCell (a.sum i) (b.sum i) }
  else none

/-- The two-axis grid of the spec's concrete scenario: each axis is split
into the bins `[-1, 0)` and `[0, 1)`. -/
def grid2 : Grid := ⟨[[-1, 0, 1], [-1, 0, 1]]⟩

/-- A one-axis grid, used to exercise the grid-mismatch path of `merge`. -/
def grid1 : Grid := ⟨[[0, 1]]⟩

/-- A concrete stand-in for the abstract square root `T::sqrt`, used only to
instantiate theorems whose statements hold for every square-root function. -/
def sqZero : ℚ → ℚ := fun _ => 0

/-- A fresh `ddof = 0` store over `grid2`. -/
def fresh2 : BinnedStatistic := BinnedStatistic.new grid2 none

/-- The scenario store after one `add_sample [0.5, 0.6] 1.0` on a fresh
`ddof = 0` store over `grid2` (the sample lands in bin `[1, 1]`). -/
def s1 : BinnedStatistic := fresh2.updatedState sqZero [1, 1] 1

/-- A fresh store over `grid2` with `ddof = 1`. -/
def sD1 : BinnedStatistic := BinnedStatistic.new grid2 (some 1)

/-- The `ddof = 1` store after one `add_sample [0.5, 0.6] 1.0`. -/
def sD1s : BinnedStatistic := sD1.updatedState sqZero [1, 1] 1

/-- A fresh store over `grid2` with `ddof = 5`. -/
def sD5 : BinnedStatistic := BinnedStatistic.new grid2 (some 5)

/-- A fresh store over the one-axis grid. -/
def sB : BinnedStatistic := BinnedStatistic.new grid1 none

/-- The spec's concrete scenario rows: the sample `(0.5, 0.6)` with value
`1.0`, then the same sample with value `2.0`. -/
def c9rows : List (List ℚ × ℚ) := [([1/2, 3/5], 1), ([1/2, 3/5], 2)]

/-- The store produced by running the concrete scenario on a fresh `ddof = 0`
store over `grid2`. -/
def c9run : Option BinnedStatistic :=
  runRows sqZero (BinnedStatistic.new grid2 none) c9rows

namespace BinnedStatistic

theorem countsNew_ne_none (s : BinnedStatistic) (id : List Nat) :
    s.countsNew id ≠ none := by
  unfold countsNew; cases s.counts id <;> simp

theorem sumNew_ne_none (s : BinnedStatistic) (id : List Nat) (v : ℚ) :
    s.sumNew id v ≠ none := by
  unfold sumNew; cases s.sum id <;> simp

theorem minNew_ne_none (s : BinnedStatistic) (id : List Nat) (v : ℚ) :
    s.minNew id v ≠ none := by
  unfold minNew; cases s.min id <;> simp

theorem maxNew_ne_none (s : BinnedStatistic) (id : List Nat) (v : ℚ) :
    s.maxNew id v ≠ none := by
  unfold maxNew; cases s.max id <;> simp

theorem countsNew_eq (s : BinnedStatistic) (id : List Nat) :
    s.countsNew id = some ((s.counts id).getD 0 + 1) := by
  unfold countsNew; cases s.counts id <;> simp

theorem updatedState_counts (sq : ℚ → ℚ) (s : BinnedStatistic) (id : List Nat)
    (value : ℚ) :
    (s.updatedState sq id value).counts = Function.update s.counts id (s.countsNew id) :=
  rfl

theorem updatedState_sum (sq : ℚ → ℚ) (s : BinnedStatistic) (id : List Nat)
    (value : ℚ) :
    (s.updatedState sq id value).sum = Function.update s.sum id (s.sumNew id value) :=
  rfl

theorem updatedState_m1 (sq : ℚ → ℚ) (s : BinnedStatistic) (id : List Nat)
    (value : ℚ) :
    (s.updatedState sq id value).m1 = Function.update s.m1 id (s.m1New id value) :=
  rfl

theorem updatedState_m2 (sq : ℚ → ℚ) (s : BinnedStatistic) (id : List Nat)
    (value : ℚ) :
    (s.updatedState sq id value).m2 = Function.update s.m2 id (s.m2New id value) :=
  rfl

theorem updatedState_mean (sq : ℚ → ℚ) (s : BinnedStatistic) (id : List Nat)
    (value : ℚ) :
    (s.updatedState sq id value).mean =
      Function.update s.mean id (some (s.m1New id value)) :=
  rfl

theorem updatedState_variance (sq : ℚ → ℚ) (s : BinnedStatistic) (id : List Nat)
    (value : ℚ) :
    (s.updatedState sq id value).variance =
      Function.update s.variance id (some (s.varVal id value)) :=
  rfl

theorem updatedState_std (sq : ℚ → ℚ) (s : BinnedStatistic) (id : List Nat)
    (value : ℚ) :
    (s.updatedState sq id value).standard_deviation =
      Function.update s.standard_deviation id (some (sq (s.varVal id value))) :=
  rfl

theorem updatedState_min (sq : ℚ → ℚ) (s : BinnedStatistic) (id : List Nat)
    (value : ℚ) :
    (s.updatedState sq id value).min = Function.update s.min id (s.minNew id value) :=
  rfl

theorem updatedState_max (sq : ℚ → ℚ) (s : BinnedStatistic) (id : List Nat)
    (value : ℚ) :
    (s.updatedState sq id value).max = Function.update s.max id (s.maxNew id value) :=
  rfl

theorem updatedState_ddof (sq : ℚ → ℚ) (s : BinnedStatistic) (id : List Nat)
    (value : ℚ) : (s.updatedState sq id value).ddof = s.ddof :=
  rfl

theorem updatedState_grid (sq : ℚ → ℚ) (s : BinnedStatistic) (id : List Nat)
    (value : ℚ) : (s.updatedState sq id value).grid = s.grid :=
  rfl

/-- Inversion of a successful `add_sample`: the bin resolved, neither panic
guard fired, and the result is exactly the per-bin update of the store. -/
theorem add_sample_ok_elim {sq : ℚ → ℚ} {s s' : BinnedStatistic}
    {sample : List ℚ} {value : ℚ}
    (h : s.add_sample sq sample value = .ok s') :
    ∃ id, s.grid.index_of sample = some id ∧ 0 ≤ s.dof id ∧
      0 ≤ s.varVal id value ∧ s' = s.updatedState sq id value := by
  unfold add_sample at h
  split at h
  next id hidx =>
    by_cases h1 : s.dof id < 0
    · rw [if_pos h1] at h; exact absurd h (by simp)
    · rw [if_neg h1] at h
      by_cases h2 : s.varVal id value < 0
      · rw [if_pos h2] at h; exact absurd h (by simp)
      · rw [if_neg h2] at h
        exact ⟨id, hidx, not_lt.1 h1, not_lt.1 h2, (AddResult.ok.inj h).symm⟩
  next hidx => exact absurd h (by simp)

/-- The invariant maintained by `new` and every successful `add_sample`:
per-bin presence of all aggregates is governed by `counts`, the mean is the
running `m1 = sum / count`, the variance obeys the `dof` rule, and the
standard deviation is the pointwise `sq` image of the variance. -/
def StoreInv (sq : ℚ → ℚ) (s : BinnedStatistic) : Prop :=
  ∀ i : List Nat,
    (s.counts i = none →
      s.sum i = none ∧ s.mean i = none ∧ s.variance i = none ∧
        s.standard_deviation i = none ∧ s.min i = none ∧ s.max i = none ∧
        s.m1 i = 0) ∧
    (∀ c : Nat, s.counts i = some c →
      0 < c ∧ s.ddof ≤ c ∧
        (∃ sv : ℚ, s.sum i = some sv ∧ s.m1 i = sv / (c : ℚ) ∧
          s.mean i = some (s.m1 i)) ∧
        (c = s.ddof → s.variance i = some 0) ∧
        s.variance i ≠ none) ∧
    s.standard_deviation i = (s.variance i).map sq

theorem storeInv_new (sq : ℚ → ℚ) (g : Grid) (d : Option Nat) :
    StoreInv sq (BinnedStatistic.new g d) := by
  intro i
  refine ⟨fun _ => ⟨rfl, rfl, rfl, rfl, rfl, rfl, rfl⟩, fun c hc => ?_, rfl⟩
  exact absurd hc (by simp [BinnedStatistic.new])

theorem storeInv_step {sq : ℚ → ℚ} {s s' : BinnedStatistic}
    {sample : List ℚ} {value : ℚ} (inv : StoreInv sq s)
    (h : s.add_sample sq sample value = .ok s') : StoreInv sq s' := by
  obtain ⟨id, _, hdof, _, rfl⟩ := add_sample_ok_elim h
  intro i
  by_cases hi : i = id
  · subst hi
    simp only [updatedState_counts, updatedState_sum, updatedState_m1,
      updatedState_m2, updatedState_mean, updatedState_variance,
      updatedState_std, updatedState_min, updatedState_max, updatedState_ddof,
      Function.update_same]
    refine ⟨fun habs => absurd habs (s.countsNew_ne_none i), fun c hc => ?_,
      by simp⟩
    have hc' : c = (s.counts i).getD 0 + 1 :=
      (Option.some_inj.mp ((s.countsNew_eq i).symm.trans hc)).symm
    have hdof' : (s.ddof : Int) ≤ ((s.counts i).getD 0 : Nat) + 1 := by
      have h1 := hdof
      unfold dof nNew n1 at h1
      omega
    refine ⟨by omega, by omega, ?_, ?_, by simp⟩
    · -- the updated mean `m1 + delta_n` equals `(sum + value) / (count + 1)`
      refine ⟨(s.sum i).getD 0 + value, ?_, ?_, trivial⟩
      · cases hs : s.counts i with
        | none =>
          have h0 := ((inv i).1 hs).1
          simp [sumNew, h0]
        | some c0 =>
          obtain ⟨sv, hsv, _, _⟩ := ((inv i).2.1 c0 hs).2.2.1
          simp [sumNew, hsv]
      · cases hs : s.counts i with
        | none =>
          have h0 := (inv i).1 hs
          have hm1 : s.m1 i = 0 := h0.2.2.2.2.2.2
          have hsum : s.sum i = none := h0.1
          simp only [m1New, delta_n, delta, nNew, n1, hs, hsum, hc']
          push_cast
          simp [hm1]
        | some c0 =>
          obtain ⟨hpos, _, ⟨sv, hsv, hm1, _⟩, _, _⟩ := (inv i).2.1 c0 hs
          simp only [m1New, delta_n, delta, nNew, n1, hs, hsv, hc']
          rw [hm1]
          have hc0 : ((c0 : ℚ)) ≠ 0 := by positivity
          have hc1 : ((c0 : ℚ) + 1) ≠ 0 := by positivity
          push_cast
          field_simp
          ring
    · -- `count == ddof` forces `dof == 0`, hence variance exactly zero
      intro hcd
      have hdz : s.dof i = 0 := by
        unfold dof nNew n1
        omega
      simp [varVal, hdz]
  · simp only [updatedState_counts, updatedState_sum, updatedState_m1,
      updatedState_m2, updatedState_mean, updatedState_variance,
      updatedState_std, updatedState_min, updatedState_max, updatedState_ddof,
      Function.update_noteq hi]
    exact inv i

/-- Every reachable store satisfies the invariant. -/
theorem reachable_storeInv {sq : ℚ → ℚ} {s : BinnedStatistic}
    (h : Reachable sq s) : StoreInv sq s := by
  induction h with
  | new g d => exact storeInv_new sq g d
  | step s s' sample value _ hok ih => exact storeInv_step ih hok

/-- When the grid resolves the sample, `add_sample` is the guarded per-bin
update. -/
theorem add_sample_eval (sq : ℚ → ℚ) (s : BinnedStatistic) (sample : List ℚ)
    (value : ℚ) (id : List Nat) (hid : s.grid.index_of sample = some id) :
    s.add_sample sq sample value =
      if s.dof id < 0 then .panicInvalidDof
      else if s.varVal id value < 0 then .panicNegVariance
      else .ok (s.updatedState sq id value) := by
  unfold add_sample
  rw [hid]

/-- C1: on every sample the grid resolves to a bin `id`, a successful
`add_sample` updates that bin by exactly the Welford recurrence: with `n1`
the prior count (absent read as 0) and `n = n1 + 1`, it stores
`count[id] = n`, `m1[id] += delta_n`, `m2[id] += term1` and
`mean[id] = m1[id]`, where `delta = value - m1[id]`, `delta_n = delta / n`
and `term1 = delta * delta_n * n1`. -/
theorem add_sample_welford (sq : ℚ → ℚ) (s s' : BinnedStatistic)
    (sample : List ℚ) (value : ℚ) (id : List Nat)
    (hid : s.grid.index_of sample = some id)
    (hok : s.add_sample sq sample value = .ok s') :
    s'.counts id = some ((s.counts id).getD 0 + 1) ∧
    s'.m1 id = s.m1 id + (value - s.m1 id) / (((s.counts id).getD 0 : ℚ) + 1) ∧
    s'.m2 id = s.m2 id +
      (value - s.m1 id) * ((value - s.m1 id) / (((s.counts id).getD 0 : ℚ) + 1)) *
        ((s.counts id).getD 0 : ℚ) ∧
    s'.mean id = some (s'.m1 id) := by
  obtain ⟨id', hid', _, _, rfl⟩ := add_sample_ok_elim hok
  obtain rfl : id = id' := Option.some_inj.mp (hid.symm.trans hid')
  simp only [updatedState_counts, updatedState_m1, updatedState_m2,
    updatedState_mean, Function.update_same]
  refine ⟨s.countsNew_eq id, ?_, ?_, trivial⟩
  · simp only [m1New, delta_n, delta, nNew, n1]
    push_cast
    ring
  · simp only [m2New, term1, delta_n, delta, nNew, n1]
    push_cast
    ring

/-- C2: when the grid does not resolve the sample point, `add_sample`
reports `BinNotFound` and returns the store with every aggregate array
(counts, sum, m1, m2, mean, variance, standard_deviation, min, max) exactly
as it was: no partial update occurs. -/
theorem add_sample_binNotFound (sq : ℚ → ℚ) (s : BinnedStatistic)
    (sample : List ℚ) (value : ℚ) (h : s.grid.index_of sample = none) :
    s.add_sample sq sample value = .binNotFound s ∧
    ∀ s', s.add_sample sq sample value = .binNotFound s' →
      s'.counts = s.counts ∧ s'.sum = s.sum ∧ s'.m1 = s.m1 ∧ s'.m2 = s.m2 ∧
        s'.mean = s.mean ∧ s'.variance = s.variance ∧
        s'.standard_deviation = s.standard_deviation ∧ s'.min = s.min ∧
        s'.max = s.max := by
  have heval : s.add_sample sq sample value = .binNotFound s := by
    unfold add_sample
    rw [h]
  refine ⟨heval, fun s' hs' => ?_⟩
  obtain rfl : s = s' := AddResult.binNotFound.inj (heval.symm.trans hs')
  exact ⟨rfl, rfl, rfl, rfl, rfl, rfl, rfl, rfl, rfl⟩

/-- C3: on a resolved bin, the variance written by `add_sample` follows the
`dof = n - ddof` case split (`n` the updated count): `dof < 0` aborts with
`InvalidDegreesOfFreedom`, `dof = 0` stores a present variance equal to
exactly zero, and `dof > 0` stores `m2[id] / dof` with `m2` the updated
accumulator. -/
theorem add_sample_variance_dof (sq : ℚ → ℚ) (s : BinnedStatistic)
    (sample : List ℚ) (value : ℚ) (id : List Nat)
    (hid : s.grid.index_of sample = some id) :
    (s.dof id < 0 → s.add_sample sq sample value = .panicInvalidDof) ∧
    (s.dof id = 0 → ∀ s', s.add_sample sq sample value = .ok s' →
      s'.variance id = some 0) ∧
    (0 < s.dof id → ∀ s', s.add_sample sq sample value = .ok s' →
      s'.variance id = some (s'.m2 id / (s.dof id : ℚ))) := by
  refine ⟨fun hneg => ?_, fun hzero s' hok => ?_, fun hpos s' hok => ?_⟩
  · rw [add_sample_eval sq s sample value id hid, if_pos hneg]
  · obtain ⟨id', hid', _, _, rfl⟩ := add_sample_ok_elim hok
    obtain rfl : id' = id := Option.some_inj.mp (hid'.symm.trans hid)
    simp [updatedState_variance, Function.update_same, varVal, hzero]
  · obtain ⟨id', hid', _, _, rfl⟩ := add_sample_ok_elim hok
    obtain rfl : id' = id := Option.some_inj.mp (hid'.symm.trans hid)
    simp only [updatedState_variance, updatedState_m2, Function.update_same]
    rw [varVal, if_neg (by omega)]

/-- C4: on every store reachable from `new` by `add_sample` calls, a bin's
count is absent exactly when its sum, mean, variance, standard deviation,
min and max are all absent. -/
theorem counts_absent_iff_all_absent (sq : ℚ → ℚ) (s : BinnedStatistic)
    (h : Reachable sq s) (i : List Nat) :
    s.counts i = none ↔
      (s.sum i = none ∧ s.mean i = none ∧ s.variance i = none ∧
        s.standard_deviation i = none ∧ s.min i = none ∧ s.max i = none) := by
  have inv := reachable_storeInv h
  constructor
  · intro hc
    obtain ⟨h1, h2, h3, h4, h5, h6, _⟩ := (inv i).1 hc
    exact ⟨h1, h2, h3, h4, h5, h6⟩
  · intro hall
    cases hc : s.counts i with
    | none => rfl
    | some c => exact absurd hall.2.2.1 ((inv i).2.1 c hc).2.2.2.2

/-- C5 (amended): on every reachable store, `variance[i]` is absent exactly
when the bin has no samples (`count[i]` absent); a bin whose count equals
`ddof` holds a present variance of exactly zero (not absent); and the
standard deviation is the square root of the variance whenever both are
present, absent exactly when the variance is absent. -/
theorem variance_std_amended (sq : ℚ → ℚ) (s : BinnedStatistic)
    (h : Reachable sq s) (i : List Nat) :
    (s.variance i = none ↔ s.counts i = none) ∧
    (∀ c, s.counts i = some c → c = s.ddof → s.variance i = some 0) ∧
    (s.standard_deviation i = none ↔ s.variance i = none) ∧
    (∀ v, s.variance i = some v → s.standard_deviation i = some (sq v)) := by
  have inv := reachable_storeInv h
  refine ⟨⟨fun hv => ?_, fun hc => ((inv i).1 hc).2.2.1⟩,
    fun c hc hcd => ((inv i).2.1 c hc).2.2.2.1 hcd, ?_, fun v hv => ?_⟩
  · cases hc : s.counts i with
    | none => rfl
    | some c => exact absurd hv ((inv i).2.1 c hc).2.2.2.2
  · rw [(inv i).2.2]
    cases s.variance i <;> simp
  · rw [(inv i).2.2, hv]
    rfl

/-- C6 (amended): on a resolved bin, `add_sample` aborts with
`InvalidDegreesOfFreedom` exactly when `ddof` strictly exceeds the updated
observation count `n = n1 + 1` of that bin (`dof = n - ddof < 0`); at
`ddof = n` no error is raised. -/
theorem invalidDof_iff (sq : ℚ → ℚ) (s : BinnedStatistic) (sample : List ℚ)
    (value : ℚ) (id : List Nat) (hid : s.grid.index_of sample = some id) :
    s.add_sample sq sample value = .panicInvalidDof ↔
      s.nNew id < (s.ddof : Int) := by
  rw [add_sample_eval sq s sample value id hid]
  constructor
  · intro h
    by_cases h1 : s.dof id < 0
    · unfold dof at h1
      omega
    · rw [if_neg h1] at h
      by_cases h2 : s.varVal id value < 0
      · rw [if_pos h2] at h
        exact absurd h (by simp)
      · rw [if_neg h2] at h
        exact absurd h (by simp)
  · intro h
    rw [if_pos (show s.dof id < 0 by unfold dof; omega)]

/-- C7: on every reachable store, a bin with a present count and a present
sum has `mean = sum / count`, exactly (the embedding's field arithmetic is
exact). -/
theorem mean_eq_sum_div_count (sq : ℚ → ℚ) (s : BinnedStatistic)
    (h : Reachable sq s) (i : List Nat) (c : Nat) (sv : ℚ)
    (hc : s.counts i = some c) (hs : s.sum i = some sv) :
    s.mean i = some (sv / (c : ℚ)) := by
  have inv := reachable_storeInv h
  obtain ⟨_, _, ⟨sv', hsv', hm1, hmean⟩, _, _⟩ := (inv i).2.1 c hc
  obtain rfl : sv = sv' := Option.some_inj.mp (hs.symm.trans hsv')
  rw [hmean, hm1]

/-- C10: `variance_2` returns an all-absent array regardless of the store's
state, and in particular never equals a present accumulated variance cell. -/
theorem variance_2_always_none (s : BinnedStatistic) (i : List Nat) :
    s.variance_2 i = none ∧
    ∀ v, s.variance i = some v → s.variance_2 i ≠ s.variance i := by
  refine ⟨rfl, fun v hv => ?_⟩
  simp [variance_2, hv]

end BinnedStatistic

/-- C8 (modelled from the spec): the merge operator exists on the exposed
surface; when both stores' grids are equal it produces a store whose `count`
and `sum` arrays are the pointwise sums of the inputs' (an absent cell is
the identity), and a grid mismatch fails before any element is combined. -/
theorem merge_spec (a b : BinnedStatistic) :
    (a.grid = b.grid → ∃ m, merge a b = some m ∧
      (∀ i, m.counts i = mergeCell (a.counts i) (b.counts i)) ∧
      (∀ i, m.sum i = mergeCell (a.sum i) (b.sum i))) ∧
    (a.grid ≠ b.grid → merge a b = none) := by
  constructor
  · intro hg
    refine ⟨{ a with
        counts := fun i => mergeCell (a.counts i) (b.counts i),
        sum := fun i => mergeCell (a.sum i) (b.sum i) }, ?_, fun i => rfl,
      fun i => rfl⟩
    rw [merge, if_pos hg]
  · intro hg
    rw [merge, if_neg hg]

section ConcreteEvidence

attribute [local semireducible] Rat.add Rat.sub Rat.mul Rat.inv

/-- The one-sample store `s1` is reachable. -/
theorem s1_reachable : Reachable sqZero s1 :=
  Reachable.step fresh2 s1 [1/2, 3/5] 1 (Reachable.new grid2 none) (by rfl)

/-- The one-sample `ddof = 1` store `sD1s` is reachable. -/
theorem sD1s_reachable : Reachable sqZero sD1s :=
  Reachable.step sD1 sD1s [1/2, 3/5] 1 (Reachable.new grid2 (some 1)) (by rfl)

/-- Witness for C1 at the concrete scenario sample `(0.5, 0.6)` with value
`1` on a fresh store: the Welford recurrence instantiated at bin `[1, 1]`. -/
theorem add_sample_welford_witness :
    s1.counts [1, 1] = some ((fresh2.counts [1, 1]).getD 0 + 1) ∧
    s1.m1 [1, 1] = fresh2.m1 [1, 1] +
      (1 - fresh2.m1 [1, 1]) / (((fresh2.counts [1, 1]).getD 0 : ℚ) + 1) ∧
    s1.m2 [1, 1] = fresh2.m2 [1, 1] +
      (1 - fresh2.m1 [1, 1]) *
        ((1 - fresh2.m1 [1, 1]) / (((fresh2.counts [1, 1]).getD 0 : ℚ) + 1)) *
        ((fresh2.counts [1, 1]).getD 0 : ℚ) ∧
    s1.mean [1, 1] = some (s1.m1 [1, 1]) :=
  BinnedStatistic.add_sample_welford sqZero fresh2 s1 [1/2, 3/5] 1 [1, 1]
    (by decide) (by rfl)

/-- Witness for C2 at the out-of-domain point `(5, 5)`: the call reports
`BinNotFound` carrying the untouched store. -/
theorem add_sample_binNotFound_witness :
    fresh2.add_sample sqZero [5, 5] 1 = .binNotFound fresh2 :=
  (BinnedStatistic.add_sample_binNotFound sqZero fresh2 [5, 5] 1 (by decide)).1

/-- Witness for C3: the `dof > 0` arm on a fresh `ddof = 0` store, the
`dof = 0` arm on a `ddof = 1` store, and the `dof < 0` abort on a
`ddof = 5` store, all at the resolved bin `[1, 1]`. -/
theorem add_sample_variance_dof_witness :
    s1.variance [1, 1] = some (s1.m2 [1, 1] / ((fresh2.dof [1, 1] : Int) : ℚ)) ∧
    sD1s.variance [1, 1] = some 0 ∧
    sD5.add_sample sqZero [1/2, 3/5] 1 = .panicInvalidDof := by
  refine ⟨?_, ?_, ?_⟩
  · exact (BinnedStatistic.add_sample_variance_dof sqZero fresh2 [1/2, 3/5] 1
      [1, 1] (by decide)).2.2 (by decide) s1 (by rfl)
  · exact (BinnedStatistic.add_sample_variance_dof sqZero sD1 [1/2, 3/5] 1
      [1, 1] (by decide)).2.1 (by decide) sD1s (by rfl)
  · exact (BinnedStatistic.add_sample_variance_dof sqZero sD5 [1/2, 3/5] 1
      [1, 1] (by decide)).1 (by decide)

/-- Witness for C4 at the reachable one-sample store: the untouched bin
`[0, 0]` instantiates the presence equivalence. -/
theorem counts_absent_iff_all_absent_witness :
    s1.counts [0, 0] = none ↔
      (s1.sum [0, 0] = none ∧ s1.mean [0, 0] = none ∧
        s1.variance [0, 0] = none ∧ s1.standard_deviation [0, 0] = none ∧
        s1.min [0, 0] = none ∧ s1.max [0, 0] = none) :=
  BinnedStatistic.counts_absent_iff_all_absent sqZero s1 s1_reachable [0, 0]

/-- C5 counterexample: a `ddof = 1` store after a single sample.  The bin
has `1 < ddof + 1 = 2` samples, yet its variance is present (exactly zero),
refuting the claimed absence below `ddof + 1` samples. -/
theorem variance_absence_counterexample :
    sD1.add_sample sqZero [1/2, 3/5] 1 = .ok sD1s ∧
    sD1s.ddof = 1 ∧ sD1s.counts [1, 1] = some 1 ∧
    (sD1s.counts [1, 1]).getD 0 < sD1s.ddof + 1 ∧
    sD1s.variance [1, 1] = some 0 ∧ sD1s.variance [1, 1] ≠ none ∧
    sD1s.standard_deviation [1, 1] ≠ none :=
  ⟨by rfl, by decide, by decide, by decide, by decide, by decide, by decide⟩

/-- Witness for C5 (amended) at the reachable `ddof = 1` one-sample store:
the `count = ddof` bin holds variance exactly zero and the standard
deviation is the square-root image of that variance. -/
theorem variance_std_amended_witness :
    sD1s.variance [1, 1] = some 0 ∧
    sD1s.standard_deviation [1, 1] = some (sqZero 0) := by
  have h := BinnedStatistic.variance_std_amended sqZero sD1s sD1s_reachable [1, 1]
  have hz : sD1s.variance [1, 1] = some 0 := h.2.1 1 (by decide) (by decide)
  exact ⟨hz, h.2.2.2 0 hz⟩

/-- C6 counterexample: on the `ddof = 1` store a first sample gives a bin
with `1` observation, so `ddof ≥ count`, yet the call succeeds instead of
aborting with `InvalidDegreesOfFreedom`. -/
theorem invalidDof_boundary_counterexample :
    sD1.add_sample sqZero [1/2, 3/5] 1 = .ok sD1s ∧
    (sD1.add_sample sqZero [1/2, 3/5] 1).isPanicInvalidDof = false ∧
    sD1s.counts [1, 1] = some 1 ∧ sD1s.ddof = 1 :=
  ⟨by rfl, by decide, by decide, by decide⟩

/-- Witness for C6 (amended): with `ddof = 5` and a first sample
(`n = 1 < 5`) the call aborts with `InvalidDegreesOfFreedom`. -/
theorem invalidDof_iff_witness :
    sD5.add_sample sqZero [1/2, 3/5] 1 = .panicInvalidDof :=
  (BinnedStatistic.invalidDof_iff sqZero sD5 [1/2, 3/5] 1 [1, 1]
    (by decide)).mpr (by decide)

/-- Witness for C7 at the reachable one-sample store: count `1`, sum `1`,
mean `1 / 1`. -/
theorem mean_eq_sum_div_count_witness :
    s1.mean [1, 1] = some ((1 : ℚ) / ((1 : Nat) : ℚ)) :=
  BinnedStatistic.mean_eq_sum_div_count sqZero s1 s1_reachable [1, 1] 1 1
    (by decide) (by decide)

/-- Witness for C8: merging a store with itself succeeds (equal grids),
merging stores over different grids fails. -/
theorem merge_spec_witness :
    merge s1 sB = none ∧ (merge s1 s1).isSome = true := by
  refine ⟨(merge_spec s1 sB).2 (by decide), ?_⟩
  obtain ⟨m, hm, _, _⟩ := (merge_spec s1 s1).1 rfl
  rw [hm]
  rfl

/-- C9 counterexample: after the two scenario samples the never-touched bin
`[0, 0]` holds an absent count, not the claimed count `0`. -/
theorem scenario_zero_cells_counterexample :
    c9run.map (fun s => s.counts [0, 0]) = some none ∧
    c9run.map (fun s => s.counts [0, 0]) ≠ some (some 0) := by
  exact ⟨by decide, by decide⟩

/-- C9 (amended): the concrete scenario — two samples `(0.5, 0.6)` with
values `1` then `2` on a fresh `ddof = 0` store over `grid2` — ends with
counts `[[None, None], [None, 2]]`, sum `[[None, None], [None, 3]]` and
mean `[[None, None], [None, 1.5]]`. -/
theorem scenario_final_state :
    c9run.map (fun s =>
      ([[s.counts [0, 0], s.counts [0, 1]], [s.counts [1, 0], s.counts [1, 1]]],
       [[s.sum [0, 0], s.sum [0, 1]], [s.sum [1, 0], s.sum [1, 1]]],
       [[s.mean [0, 0], s.mean [0, 1]], [s.mean [1, 0], s.mean [1, 1]]])) =
    some ([[none, none], [none, some 2]],
          [[none, none], [none, some 3]],
          [[none, none], [none, some (3/2)]]) := by
  decide

/-- Witness for C10 at the one-sample store, whose accumulated variance at
bin `[1, 1]` is present: `variance_2` still reports an absent cell there. -/
theorem variance_2_witness :
    s1.variance_2 [1, 1] = none ∧ s1.variance_2 [1, 1] ≠ s1.variance [1, 1] :=
  ⟨(BinnedStatistic.variance_2_always_none s1 [1, 1]).1,
   (BinnedStatistic.variance_2_always_none s1 [1, 1]).2 0 (by decide)⟩

end ConcreteEvidence

end BinnedStat
